import Mathlib

/-!
Verification of the OpenDrive remote-filesystem adapter
(`src/opendrive/opendrive.go`) against its natural-language
specification.  The Go code is shallowly embedded: pure decision logic
becomes Lean functions, network calls are abstracted as explicit trace
events or as environment parameters holding the response the server
would have produced, and Go `int64` arithmetic is carried out on `Int`.
-/

namespace Opendrive

/-! ## Errors (the sentinel errors of the `fs` package used by the code) -/

/-- Sentinel and wrapped errors that the adapter can return.
`dirNotFound` embeds `fs.ErrorDirNotFound`, `objectNotFound` embeds
`fs.ErrorObjectNotFound`, `cantCopy` embeds `fs.ErrorCantCopy`,
`hashUnsupported` embeds `fs.ErrHashUnsupported`; `other` holds any
other error message (from `errors.New` / `errors.Errorf` /
`errors.Wrap`). -/
inductive FsError
  | dirNotFound
  | objectNotFound
  | cantCopy
  | hashUnsupported
  | other (msg : String)
deriving DecidableEq

/-! ## Retry classification (`retryErrorCodes`, `Fs.shouldRetry`) -/

/-- Embeds the `retryErrorCodes` slice of the source. -/
def retryErrorCodes : List Nat := [400, 401, 408, 429, 500, 502, 503, 504]

/-- Modelled from the spec: `fs.ShouldRetry` is defined outside `src/`;
per the spec it classifies transport-level failures (connection reset,
timeout) as retryable.  The error is abstracted to the flag saying
whether it is such a transport-level failure. -/
def ShouldRetry (transportFailure : Bool) : Bool := transportFailure

/-- Modelled from the spec: `fs.ShouldRetryHTTP` is defined outside
`src/`; per the spec it is a data-driven lookup of the HTTP status of
the response in the given status-code table. -/
def ShouldRetryHTTP (status : Nat) (codes : List Nat) : Bool := codes.contains status

/-- Embeds `Fs.shouldRetry` of the source:
`fs.ShouldRetry(err) || fs.ShouldRetryHTTP(resp, retryErrorCodes)`. -/
def shouldRetry (transportFailure : Bool) (status : Nat) : Bool :=
  ShouldRetry transportFailure || ShouldRetryHTTP status retryErrorCodes

/-! ## Chunked upload (`Object.Update`)

`Object.Update` opens an upload, then loops: while `remainingBytes > 0`
it takes `currentChunkSize := chunkSize` capped at `remainingBytes`,
copies exactly that many bytes from the source stream into a multipart
form (`io.CopyN`, which fails when the stream holds fewer bytes), sends
the form, advances `chunkOffset`, and finally closes the upload and
sets the modification time.  Network calls are modelled as succeeding
(the claims are about the client logic); the source stream is modelled
by the number of bytes it still holds. -/

/-- Embeds `chunkSize := int64(1024 * 1024 * 10)` in `Object.Update`. -/
def chunkSize : Int := 1024 * 1024 * 10

/-- The multipart form written for one chunk, in source order: the
`file_data` file part (whose filename is `o.remote`), then the fields
`session_id` (written twice, exactly as in the source), `file_id`,
`temp_location`, `chunk_offset`, `chunk_size`. -/
def chunkForm (remote sessionID fileID tempLocation : String)
    (chunkOffset currentChunkSize : Int) : List (String × String) :=
  [("file_data", remote),
   ("session_id", sessionID),
   ("session_id", sessionID),
   ("file_id", fileID),
   ("temp_location", tempLocation),
   ("chunk_offset", toString chunkOffset),
   ("chunk_size", toString currentChunkSize)]

/-- The network calls `Object.Update` makes, as trace events. -/
inductive ApiCall
  | openFileUpload (sessionID fileID : String) (size : Int)
  | uploadFileChunk (chunkOffset currentChunkSize : Int)
      (form : List (String × String))
  | closeFileUpload (sessionID fileID : String) (size : Int)
      (tempLocation : String)
  | fileSettings (sessionID fileID : String) (modTime : Int)
deriving DecidableEq

/-- The chunk loop of `Object.Update`.  `stream` is how many bytes the
source reader still holds; `io.CopyN` aborts the upload when it cannot
deliver `currentChunkSize` bytes.  Returns the chunk calls sent and the
bytes left unread in the stream.  The Go assignment
`currentChunkSize := chunkSize; if currentChunkSize > remainingBytes
then currentChunkSize = remainingBytes` is written as `min`. -/
def uploadChunks (remote sessionID fileID tempLocation : String)
    (stream chunkOffset remainingBytes : Int) :
    Except String (List ApiCall × Int) :=
  if remainingBytes > 0 then
    let currentChunkSize := min chunkSize remainingBytes
    if stream < currentChunkSize then
      .error "failed to create file"
    else
      match uploadChunks remote sessionID fileID tempLocation
          (stream - currentChunkSize) (chunkOffset + currentChunkSize)
          (remainingBytes - currentChunkSize) with
      | .error e => .error e
      | .ok (calls, rest) =>
          .ok (ApiCall.uploadFileChunk chunkOffset currentChunkSize
                (chunkForm remote sessionID fileID tempLocation
                  chunkOffset currentChunkSize) :: calls, rest)
  else
    .ok ([], stream)
termination_by remainingBytes.toNat
decreasing_by
  simp_wf
  simp only [chunkSize]
  omega

/-- Embeds `Object.Update`: open the upload, run the chunk loop from
offset 0 with `remainingBytes := size`, close the upload, set the
modification time.  Produces the trace of calls in order. -/
def update (remote sessionID fileID tempLocation : String)
    (size modTime stream : Int) : Except String (List ApiCall) :=
  match uploadChunks remote sessionID fileID tempLocation stream 0 size with
  | .error e => .error e
  | .ok (chunkCalls, _) =>
      .ok (ApiCall.openFileUpload sessionID fileID size ::
            (chunkCalls ++
              [ApiCall.closeFileUpload sessionID fileID size tempLocation,
               ApiCall.fileSettings sessionID fileID modTime]))

/-- Is this trace event a chunk send? -/
def isChunkCall : ApiCall → Bool
  | .uploadFileChunk _ _ _ => true
  | _ => false

/-- The byte offset a chunk send carries (0 for other events). -/
def chunkOffsetOf : ApiCall → Int
  | .uploadFileChunk o _ _ => o
  | _ => 0

/-- The byte length a chunk send carries (0 for other events). -/
def chunkSizeOf : ApiCall → Int
  | .uploadFileChunk _ s _ => s
  | _ => 0

/-- How often a multipart form contains the `session_id` field. -/
def sessionIDFieldCount (form : List (String × String)) : Nat :=
  (form.filter (fun p => p.1 == "session_id")).length

/-! ## Remote records (`File`, `Folder`, `FolderList`)

These types live in the package's types file, which is not under
`src/`; their fields are modelled from the spec's Remote File Record
(fileID, name, size in bytes, modifiedTime in unix seconds) and from
how `opendrive.go` uses them. -/

/-- Modelled from the spec: a remote folder record as used by
`FolderList.Folders` (the types file is missing from `src/`). -/
structure Folder where
  folderID : String
  name : String
  dateModified : Int
deriving DecidableEq

/-- Modelled from the spec: a remote file record
{fileID, name, size (bytes), modifiedTime (unix seconds)} as used by
`FolderList.Files` (the types file is missing from `src/`). -/
structure File where
  name : String
  fileID : String
  size : Int
  dateModified : Int
deriving DecidableEq

/-- Modelled from the spec: a folder listing with immediate child
folders and files, as used by `readMetaDataForFolderID`, `FindLeaf`,
`ListDir` and `Object.readMetaData`. -/
structure FolderList where
  folders : List Folder
  files : List File
deriving DecidableEq

/-! ## `Fs.purgeCheck` and `Fs.Rmdir` -/

/-- Embeds `path.Join(f.root, dir)` for already-clean segments (the
claims use no `..` or duplicate slashes, where `path.Join` would also
clean). -/
def pathJoin (a b : String) : String :=
  if a = "" then b else if b = "" then a else a ++ "/" ++ b

/-- Outcome of `purgeCheck`: either an error is returned, or
`deleteObject` is called on the resolved folder ID (followed by the
cache flush). -/
inductive PurgeOutcome
  | failed (e : FsError)
  | deleted (folderID : String)
deriving DecidableEq

/-- Embeds `Fs.purgeCheck`.  The directory-cache resolution
(`FindRoot`, `FindDir`) and the folder listing
(`readMetaDataForFolderID`) are network operations abstracted as the
results they produce.  Note the source checks only `len(item.Files)`
when `check` is set — child folders are not inspected. -/
def purgeCheck (root dir : String) (findRootErr : Option FsError)
    (findDir : Except FsError String) (listing : Except FsError FolderList)
    (check : Bool) : PurgeOutcome :=
  if pathJoin root dir = "" then
    .failed (.other "cannot purge root directory")
  else
    match findRootErr with
    | some e => .failed e
    | none =>
      match findDir with
      | .error e => .failed e
      | .ok rootID =>
        match listing with
        | .error e => .failed e
        | .ok item =>
          if check && (item.files.length != 0) then
            .failed (.other "folder not empty")
          else
            .deleted rootID

/-- Embeds `Fs.Rmdir`: `purgeCheck(dir, true)`. -/
def Rmdir (root dir : String) (findRootErr : Option FsError)
    (findDir : Except FsError String)
    (listing : Except FsError FolderList) : PurgeOutcome :=
  purgeCheck root dir findRootErr findDir listing true

/-! ## `Object.readMetaData`, `newObjectWithInfo`, `NewObject` -/

/-- Network calls made by `Fs.Copy` and `Object.readMetaData`, as
trace events.  `resolveDest` stands for the destination
`FindRootAndPath(remote, true)` performed by `createObject`;
`moveCopy` is the POST to `/file/move_copy.json`. -/
inductive Call
  | itemByName (sessionID directoryID name : String)
  | resolveDest (remote : String)
  | moveCopy (sessionID srcFileID dstFolderID move overwrite : String)
deriving DecidableEq

/-- The metadata fields `Object.readMetaData` writes into the object:
`o.id`, `o.modTime`, `o.md5` (always set to the empty string) and
`o.size`. -/
structure ObjMeta where
  fileID : String
  dateModified : Int
  md5 : String
  size : Int
deriving DecidableEq

/-- An `Object` of the source: remote path, file ID, modification
time (unix seconds), MD5 string, size. -/
structure Object where
  remote : String
  id : String
  modTime : Int
  md5 : String
  size : Int
deriving DecidableEq

/-- Embeds `Object.readMetaData`.  `resolution` is the result of
`dirCache.FindRootAndPath(o.remote, false)` (leaf and directory ID);
`listing` is the response of the `itembyname` lookup, whose network
call is recorded in the returned trace.  A `dirNotFound` resolution
error is converted to `objectNotFound`; any other resolution error is
returned as is; an empty `Files` listing is `objectNotFound`;
otherwise the first file's fields are taken and `o.md5` is set to the
empty string. -/
def readMetaData (sessionID : String)
    (resolution : Except FsError (String × String))
    (listing : Except String FolderList) :
    Except FsError ObjMeta × List Call :=
  match resolution with
  | .error e =>
      (if e = FsError.dirNotFound then .error FsError.objectNotFound
       else .error e, [])
  | .ok (leaf, directoryID) =>
      match listing with
      | .error msg =>
          (.error (.other ("failed to get folder list: " ++ msg)),
            [Call.itemByName sessionID directoryID leaf])
      | .ok folderList =>
          match folderList.files with
          | [] =>
              (.error FsError.objectNotFound,
                [Call.itemByName sessionID directoryID leaf])
          | leafFile :: _ =>
              (.ok { fileID := leafFile.fileID,
                     dateModified := leafFile.dateModified,
                     md5 := "",
                     size := leafFile.size },
                [Call.itemByName sessionID directoryID leaf])

/-- Embeds `Fs.newObjectWithInfo`: with a listing record the object is
built directly (its `md5` field keeps the Go zero value, the empty
string); without one, `readMetaData` is consulted. -/
def newObjectWithInfo (sessionID remote : String) (file : Option File)
    (resolution : Except FsError (String × String))
    (listing : Except String FolderList) : Except FsError Object :=
  match file with
  | some f =>
      .ok { remote := remote, id := f.fileID, modTime := f.dateModified,
            md5 := "", size := f.size }
  | none =>
      match (readMetaData sessionID resolution listing).1 with
      | .error e => .error e
      | .ok m =>
          .ok { remote := remote, id := m.fileID,
                modTime := m.dateModified, md5 := m.md5, size := m.size }

/-- Embeds `Fs.NewObject`: `newObjectWithInfo(remote, nil)`. -/
def NewObject (sessionID remote : String)
    (resolution : Except FsError (String × String))
    (listing : Except String FolderList) : Except FsError Object :=
  newObjectWithInfo sessionID remote none resolution listing

/-- Does this metadata result surface the raw directory-not-found
error? -/
def isDirNotFoundResult : Except FsError ObjMeta → Bool
  | .error FsError.dirNotFound => true
  | _ => false

/-! ## `Object.Hash` -/

/-- Modelled from the spec: the host hash-algorithm identifiers
(`fs.HashType`, defined outside `src/`); the backend supports only
content-MD5. -/
inductive HashType
  | md5
  | sha1
  | dropbox
deriving DecidableEq

/-- Embeds `Object.Hash`: anything but MD5 is rejected with
`fs.ErrHashUnsupported`; for MD5 the stored string is returned. -/
def Object.Hash (o : Object) (t : HashType) : Except FsError String :=
  if t ≠ HashType.md5 then .error FsError.hashUnsupported
  else .ok o.md5

/-! ## `Fs.Copy` and `strconv.ParseInt` -/

/-- Embeds `Fs.rootSlash`. -/
def rootSlash (root : String) : String :=
  if root = "" then root else root ++ "/"

/-- Embeds `strings.ToLower` as used by the same-name guard (on the
ASCII letters exercised by path names). -/
def lowerStr (s : String) : String :=
  ⟨s.data.map Char.toLower⟩

/-- Modelled from the spec: the response of `/file/move_copy.json`
(the types file is missing from `src/`); per the source usage its
`Size` is a decimal string and `FileID` the new file's ID. -/
structure CopyFileResponse where
  fileID : String
  size : String
deriving DecidableEq

/-- Sign handling of `strconv.ParseInt`: strip a leading `+` or `-`. -/
def stripSign : List Char → Bool × List Char
  | '+' :: rest => (false, rest)
  | '-' :: rest => (true, rest)
  | l => (false, l)

/-- The largest int64 value, `1<<63 - 1`. -/
def maxInt64 : Int := 9223372036854775807

/-- The smallest int64 value, `-(1<<63)`. -/
def minInt64 : Int := -9223372036854775808

/-- Embeds `strconv.ParseInt(s, 10, 64)`: the parsed value together
with a flag saying whether parsing fully succeeded.  On a syntax error
Go returns value 0 with `ErrSyntax`; on overflow the clamped 64-bit
bound with `ErrRange`.  `Fs.Copy` discards the error part. -/
def parseInt (s : String) : Int × Bool :=
  match stripSign s.data with
  | (neg, ds) =>
    if ds.isEmpty then (0, false)
    else if ds.all Char.isDigit then
      let v : Nat := ds.foldl (fun a c => a * 10 + (c.toNat - 48)) 0
      let i : Int := if neg then -(v : Int) else (v : Int)
      if i > maxInt64 then (maxInt64, false)
      else if i < minInt64 then (minInt64, false)
      else (i, true)
    else (0, false)

/-- Is the string a syntactically well-formed decimal integer for
`strconv.ParseInt` (an optional sign followed by at least one
digit)? -/
def isGoDecimal (s : String) : Bool :=
  !(stripSign s.data).2.isEmpty && (stripSign s.data).2.all Char.isDigit

/-- The environment a `Fs.Copy` call runs against: the two rooted
paths, the session, and the responses the abstracted network delivers
for each step (source metadata resolution and lookup, destination
resolution by `createObject`, and the `move_copy` response). -/
structure CopyEnv where
  srcRoot : String
  srcRemote : String
  dstRoot : String
  dstRemote : String
  sessionID : String
  srcResolution : Except FsError (String × String)
  srcListing : Except String FolderList
  dstResolution : Except FsError (String × String)
  copyResp : Except String CopyFileResponse

/-- Embeds `Fs.Copy` (the `srcObj.(*Object)` type assertion is assumed
to succeed).  Steps in source order: `srcObj.readMetaData()` (with
its network call recorded), the case-insensitive same-path guard
(`strings.ToLower` comparison; the Go error text is `Errorf` with the
two quoted paths and `as are same name when lowercase`), `createObject`
(destination resolution), the `move_copy` POST, and finally
`size, _ := strconv.ParseInt(response.Size, 10, 64)` whose error is
discarded; the destination object keeps zero values for `modTime` and
`md5` because `createObject` only sets `fs` and `remote`. -/
def copy (env : CopyEnv) : Except FsError Object × List Call :=
  match readMetaData env.sessionID env.srcResolution env.srcListing with
  | (.error e, mdCalls) => (.error e, mdCalls)
  | (.ok srcMeta, mdCalls) =>
      let srcPath := rootSlash env.srcRoot ++ env.srcRemote
      let dstPath := rootSlash env.dstRoot ++ env.dstRemote
      if lowerStr srcPath = lowerStr dstPath then
        (.error (.other ("copy rejected: " ++ srcPath ++ " -> " ++
          dstPath ++ " are same name when lowercase")), mdCalls)
      else
        match env.dstResolution with
        | .error e =>
            (.error e, mdCalls ++ [Call.resolveDest env.dstRemote])
        | .ok (_leaf, directoryID) =>
            match env.copyResp with
            | .error msg =>
                (.error (.other msg),
                  mdCalls ++ [Call.resolveDest env.dstRemote,
                    Call.moveCopy env.sessionID srcMeta.fileID directoryID
                      "false" "true"])
            | .ok response =>
                (.ok { remote := env.dstRemote, id := response.fileID,
                       modTime := 0, md5 := "",
                       size := (parseInt response.size).1 },
                  mdCalls ++ [Call.resolveDest env.dstRemote,
                    Call.moveCopy env.sessionID srcMeta.fileID directoryID
                      "false" "true"])

/-- Loop invariant of the chunk loop: when the source stream holds at
least the declared `n` remaining bytes, the loop succeeds, consumes
exactly `n` bytes, sends one chunk per `chunkSize` block (the
characteristic offset/size/form facts needed by the claims). -/
theorem uploadChunks_spec (remote sid fid tmp : String) :
    ∀ (n : Nat) (chunkOffset stream : Int), (n : Int) ≤ stream →
    ∃ calls : List ApiCall,
      uploadChunks remote sid fid tmp stream chunkOffset (n : Int) =
          .ok (calls, stream - (n : Int)) ∧
      calls.map chunkOffsetOf =
        (List.range ((n + chunkSize.toNat - 1) / chunkSize.toNat)).map
          (fun i : Nat => chunkOffset + (i : Int) * chunkSize) ∧
      (calls.map chunkSizeOf).sum = (n : Int) ∧
      (∀ c ∈ calls, ∃ off sz,
        c = ApiCall.uploadFileChunk off sz
              (chunkForm remote sid fid tmp off sz)) := by
  have hCval : chunkSize = 10485760 := by norm_num [chunkSize]
  have hCnat : chunkSize.toNat = 10485760 := by
    rw [hCval]
    rfl
  intro n
  induction n using Nat.strong_induction_on with
  | _ n ih =>
    intro chunkOffset stream hle
    rcases Nat.eq_zero_or_pos n with h0 | hpos
    · subst h0
      refine ⟨[], ?_, ?_, ?_, ?_⟩
      · rw [uploadChunks]
        norm_num
      · have h0d : (0 + chunkSize.toNat - 1) / chunkSize.toNat = 0 := by
          rw [hCnat]
        rw [h0d]
        rfl
      · simp
      · simp
    · have hngt : ((n : Int) > 0) := by exact_mod_cast hpos
      by_cases hsmall : (n : Int) ≤ chunkSize
      · -- the final (possibly partial) chunk: the loop stops after it
        have hsmall' : (n : Int) ≤ 10485760 := hCval ▸ hsmall
        refine ⟨[ApiCall.uploadFileChunk chunkOffset (n : Int)
          (chunkForm remote sid fid tmp chunkOffset (n : Int))],
          ?_, ?_, ?_, ?_⟩
        · rw [uploadChunks, if_pos hngt]
          simp only [min_eq_right hsmall]
          rw [if_neg (not_lt.mpr hle)]
          have hbase : uploadChunks remote sid fid tmp (stream - (n : Int))
              (chunkOffset + (n : Int)) ((n : Int) - (n : Int)) =
              .ok ([], stream - (n : Int)) := by
            rw [sub_self, uploadChunks]
            norm_num
          rw [hbase]
        · have h1 : (n + chunkSize.toNat - 1) / chunkSize.toNat = 1 := by
            rw [hCnat]
            omega
          rw [h1]
          simp [chunkOffsetOf, List.range_succ]
        · simp [chunkSizeOf]
        · intro c hc
          simp only [List.mem_singleton] at hc
          exact ⟨chunkOffset, (n : Int), hc⟩
      · -- a full chunk followed by the rest of the loop
        have hCn : (10485760 : Int) < (n : Int) := hCval ▸ not_le.mp hsmall
        have hC' : chunkSize.toNat < n := by
          rw [hCnat]
          omega
        obtain ⟨calls', hstep', hoff', hsum', hform'⟩ :=
          ih (n - chunkSize.toNat) (by omega) (chunkOffset + chunkSize)
            (stream - chunkSize)
            (by rw [hCnat, hCval]; omega)
        refine ⟨ApiCall.uploadFileChunk chunkOffset chunkSize
          (chunkForm remote sid fid tmp chunkOffset chunkSize) :: calls',
          ?_, ?_, ?_, ?_⟩
        · rw [uploadChunks, if_pos hngt]
          simp only [min_eq_left (le_of_lt (not_le.mp hsmall))]
          rw [if_neg (not_lt.mpr (by rw [hCval]; omega : chunkSize ≤ stream))]
          have hcast : (n : Int) - chunkSize =
              ((n - chunkSize.toNat : Nat) : Int) := by
            rw [hCnat, hCval]
            omega
          have hrest : stream - chunkSize -
              ((n - chunkSize.toNat : Nat) : Int) = stream - (n : Int) := by
            rw [hCnat, hCval]
            omega
          rw [hcast, hstep', hrest]
        · have h2 : (n + chunkSize.toNat - 1) / chunkSize.toNat =
              (n - chunkSize.toNat + chunkSize.toNat - 1) / chunkSize.toNat
                + 1 := by
            rw [hCnat]
            omega
          rw [List.map_cons, hoff', h2, List.range_succ_eq_map,
            List.map_cons, List.map_map]
          congr 1
          · simp [chunkOffsetOf]
          · apply List.map_congr_left
            intro i _
            simp only [Function.comp_apply]
            push_cast
            ring
        · rw [List.map_cons, List.sum_cons, hsum']
          simp only [chunkSizeOf]
          rw [hCnat, hCval]
          omega
        · intro c hc
          rcases List.mem_cons.mp hc with h | h
          · exact ⟨chunkOffset, chunkSize, h⟩
          · exact hform' c h

/-- When the declared remaining size is positive and the source stream
holds fewer bytes, the chunk loop aborts with an error at the chunk on
which `io.CopyN` comes up short. -/
theorem uploadChunks_short (remote sid fid tmp : String) :
    ∀ (n : Nat) (off stream : Int), 0 < n → stream < (n : Int) →
      ∃ e, uploadChunks remote sid fid tmp stream off (n : Int) = .error e := by
  have hCval : chunkSize = 10485760 := by norm_num [chunkSize]
  have hlink : ((chunkSize.toNat : Nat) : Int) = chunkSize := by
    rw [hCval]
    rfl
  have hCpos : (0 : Int) < chunkSize := by
    rw [hCval]
    norm_num
  intro n
  induction n using Nat.strong_induction_on with
  | _ n ih =>
    intro off stream hn hlt
    have hngt : ((n : Int) > 0) := by exact_mod_cast hn
    by_cases hsmall : (n : Int) ≤ chunkSize
    · refine ⟨"failed to create file", ?_⟩
      rw [uploadChunks, if_pos hngt]
      simp only [min_eq_right hsmall]
      rw [if_pos hlt]
    · have hCn : chunkSize < (n : Int) := not_le.mp hsmall
      by_cases hs : stream < chunkSize
      · refine ⟨"failed to create file", ?_⟩
        rw [uploadChunks, if_pos hngt]
        simp only [min_eq_left (le_of_lt hCn)]
        rw [if_pos hs]
      · obtain ⟨e, he⟩ := ih (n - chunkSize.toNat) (by omega)
          (off + chunkSize) (stream - chunkSize) (by omega) (by omega)
        refine ⟨e, ?_⟩
        rw [uploadChunks, if_pos hngt]
        simp only [min_eq_left (le_of_lt hCn)]
        rw [if_neg hs]
        have hcast : (n : Int) - chunkSize =
            ((n - chunkSize.toNat : Nat) : Int) := by omega
        rw [hcast, he]

/-- Every chunk call in a successful run of the chunk loop carries a
`chunkForm`-built multipart payload. -/
theorem uploadChunks_ok_forms (remote sid fid tmp : String)
    (r off stream : Int) (calls : List ApiCall) (rest : Int)
    (h : uploadChunks remote sid fid tmp stream off r = .ok (calls, rest)) :
    ∀ c ∈ calls, ∃ o z,
      c = ApiCall.uploadFileChunk o z (chunkForm remote sid fid tmp o z) := by
  by_cases hr : r > 0
  · by_cases hs : stream < r
    · obtain ⟨e, he⟩ := uploadChunks_short remote sid fid tmp r.toNat off
        stream (by omega) (by omega)
      have hrt : ((r.toNat : Nat) : Int) = r := by omega
      rw [hrt] at he
      rw [he] at h
      exact absurd h (by simp)
    · obtain ⟨calls', hstep, _, _, hforms⟩ :=
        uploadChunks_spec remote sid fid tmp r.toNat off stream (by omega)
      have hrt : ((r.toNat : Nat) : Int) = r := by omega
      rw [hrt] at hstep
      rw [hstep] at h
      simp only [Except.ok.injEq, Prod.mk.injEq] at h
      obtain ⟨h1, -⟩ := h
      subst h1
      exact hforms
  · rw [uploadChunks, if_neg hr] at h
    simp only [Except.ok.injEq, Prod.mk.injEq] at h
    obtain ⟨h1, -⟩ := h
    subst h1
    intro c hc
    exact absurd hc (by simp)

end Opendrive

namespace Opendrive

/-- C1: uploading a stream of declared size `S` with `Object.Update`
succeeds, and its trace contains exactly `ceil(S / chunkSize)` chunk
sends whose offsets are `0, chunkSize, 2 * chunkSize, ...`, whose byte
lengths sum exactly to `S`, and the open-upload and close-upload calls
are always both performed (so for `S = 0` the chunk list is empty, by
`List.range 0 = []`, while open and close still happen). -/
theorem update_chunking (remote sid fid tmp : String) (modTime : Int)
    (S : Nat) :
    ∃ calls : List ApiCall,
      update remote sid fid tmp (S : Int) modTime (S : Int) = .ok calls ∧
      (calls.filter isChunkCall).map chunkOffsetOf =
        (List.range ((S + chunkSize.toNat - 1) / chunkSize.toNat)).map
          (fun i : Nat => (i : Int) * chunkSize) ∧
      ((calls.filter isChunkCall).map chunkSizeOf).sum = (S : Int) ∧
      ApiCall.openFileUpload sid fid (S : Int) ∈ calls ∧
      ApiCall.closeFileUpload sid fid (S : Int) tmp ∈ calls := by
  obtain ⟨cs, hstep, hoff, hsum, hforms⟩ :=
    uploadChunks_spec remote sid fid tmp S 0 (S : Int) le_rfl
  have hchunk : ∀ c ∈ cs, isChunkCall c = true := by
    intro c hc
    obtain ⟨o, z, rfl⟩ := hforms c hc
    rfl
  have hfilter : (ApiCall.openFileUpload sid fid (S : Int) ::
      (cs ++ [ApiCall.closeFileUpload sid fid (S : Int) tmp,
        ApiCall.fileSettings sid fid modTime])).filter isChunkCall = cs := by
    rw [List.filter_cons_of_neg (by simp [isChunkCall]), List.filter_append,
      List.filter_eq_self.mpr hchunk]
    simp [isChunkCall]
  refine ⟨ApiCall.openFileUpload sid fid (S : Int) ::
      (cs ++ [ApiCall.closeFileUpload sid fid (S : Int) tmp,
        ApiCall.fileSettings sid fid modTime]), ?_, ?_, ?_, ?_, ?_⟩
  · rw [update, hstep]
  · rw [hfilter, hoff]
    apply List.map_congr_left
    intro i _
    simp
  · rw [hfilter, hsum]
  · simp
  · simp

/-- C4 (amended): when the source stream yields fewer bytes than the
declared size, `Object.Update` fails with an error instead of
completing. -/
theorem update_short_stream (remote sid fid tmp : String)
    (size modTime stream : Int) (h0 : 0 ≤ stream) (hlt : stream < size) :
    ∃ e, update remote sid fid tmp size modTime stream = .error e := by
  have hsz : ((size.toNat : Nat) : Int) = size := by omega
  obtain ⟨e, he⟩ := uploadChunks_short remote sid fid tmp size.toNat 0
    stream (by omega) (by omega)
  refine ⟨e, ?_⟩
  rw [update, ← hsz, he]

/-- Witness for `update_short_stream`: declared size 2, stream of 1
byte. -/
theorem update_short_stream_witness :
    ∃ e, update "file" "sess" "fid" "tmp" 2 0 1 = .error e :=
  update_short_stream "file" "sess" "fid" "tmp" 2 0 1 (by norm_num)
    (by norm_num)

/-- C4 counterexample to the claim as stated: the stream holds 2 bytes
but the declared size is 1 (a number of bytes different from the
declared size); `Object.Update` completes successfully, reading only
the first byte, instead of failing with an error. -/
theorem update_longer_stream_succeeds :
    ((2 : Int) == (1 : Int)) = false ∧
    update "file" "sess" "fid" "tmp" 1 0 2 =
      .ok [ApiCall.openFileUpload "sess" "fid" 1,
        ApiCall.uploadFileChunk 0 1 (chunkForm "file" "sess" "fid" "tmp" 0 1),
        ApiCall.closeFileUpload "sess" "fid" 1 "tmp",
        ApiCall.fileSettings "sess" "fid" 0] := by
  refine ⟨rfl, ?_⟩
  rw [update, uploadChunks]
  norm_num [chunkSize, min_def]
  rw [uploadChunks]
  norm_num

/-- C7: every chunk send in a successful `Object.Update` carries the
`session_id` form field exactly twice (the source writes it twice per
chunk). -/
theorem update_session_id_twice (remote sid fid tmp : String)
    (size modTime stream : Int) (calls : List ApiCall)
    (h : update remote sid fid tmp size modTime stream = .ok calls)
    (off sz : Int) (form : List (String × String))
    (hmem : ApiCall.uploadFileChunk off sz form ∈ calls) :
    sessionIDFieldCount form = 2 := by
  rw [update] at h
  cases hrec : uploadChunks remote sid fid tmp stream 0 size with
  | error e =>
    rw [hrec] at h
    exact absurd h (by simp)
  | ok p =>
    obtain ⟨cs, rest⟩ := p
    rw [hrec] at h
    simp only [Except.ok.injEq] at h
    subst h
    have hcs : ApiCall.uploadFileChunk off sz form ∈ cs := by
      simp only [List.mem_cons, List.mem_append, List.mem_singleton,
        List.not_mem_nil, or_false] at hmem
      rcases hmem with h | h | h | h
      · exact absurd h (by simp)
      · exact h
      · exact absurd h (by simp)
      · exact absurd h (by simp)
    obtain ⟨o, z, heq⟩ :=
      uploadChunks_ok_forms remote sid fid tmp size 0 stream cs rest hrec
        _ hcs
    injection heq with h1 h2 h3
    rw [h3]
    rfl

/-- Witness for `update_session_id_twice`: a one-byte upload whose
single chunk form is inspected. -/
theorem update_session_id_twice_witness :
    sessionIDFieldCount (chunkForm "file" "sess" "fid" "tmp" 0 1) = 2 := by
  refine update_session_id_twice "file" "sess" "fid" "tmp" 1 0 1
    [ApiCall.openFileUpload "sess" "fid" 1,
     ApiCall.uploadFileChunk 0 1 (chunkForm "file" "sess" "fid" "tmp" 0 1),
     ApiCall.closeFileUpload "sess" "fid" 1 "tmp",
     ApiCall.fileSettings "sess" "fid" 0] ?_ 0 1
    (chunkForm "file" "sess" "fid" "tmp" 0 1) ?_
  · rw [update, uploadChunks]
    norm_num [chunkSize, min_def]
    rw [uploadChunks]
    norm_num
  · simp

/-- C2: `shouldRetry` classifies a call as retryable if and only if
there is a transport-level failure or the HTTP status is one of
400, 401, 408, 429, 500, 502, 503, 504; every other outcome is
terminal (not retried). -/
theorem shouldRetry_iff_transport_or_code (transportFailure : Bool) (status : Nat) :
    shouldRetry transportFailure status = true ↔
      transportFailure = true ∨
        status ∈ ([400, 401, 408, 429, 500, 502, 503, 504] : List Nat) := by
  simp [shouldRetry, ShouldRetry, ShouldRetryHTTP, retryErrorCodes,
    List.contains]

/-- C3 (code bug): `Rmdir` on a directory whose listing holds one
child folder and zero files issues the delete call instead of failing
with the not-empty error — `purgeCheck` tests only `len(item.Files)`,
so child folders do not stop the removal, contradicting the Rmdir
contract stated in the function comment of the source. -/
theorem rmdir_deletes_folder_with_subfolders :
    Rmdir "root" "sub" none (.ok "folderID1")
      (.ok { folders := [{ folderID := "childID", name := "child",
                           dateModified := 0 }], files := [] }) =
      .deleted "folderID1" := rfl

/-- C6: a `dirNotFound` failure of the path resolution is converted by
`Object.readMetaData` into `objectNotFound` (and `Fs.NewObject`
surfaces the same), and no metadata result ever carries the raw
`dirNotFound` error. -/
theorem readMetaData_dirNotFound_converted (sessionID remote : String)
    (listing : Except String FolderList) :
    (readMetaData sessionID (.error FsError.dirNotFound) listing).1 =
        .error FsError.objectNotFound ∧
    (∀ resolution : Except FsError (String × String),
      isDirNotFoundResult
        (readMetaData sessionID resolution listing).1 = false) ∧
    NewObject sessionID remote (.error FsError.dirNotFound) listing =
      .error FsError.objectNotFound := by
  refine ⟨rfl, ?_, rfl⟩
  intro resolution
  rcases resolution with e | ⟨leaf, dirID⟩
  · cases e <;> rfl
  · rcases listing with msg | ⟨folders, files⟩
    · rfl
    · rcases files with _ | ⟨f, fs⟩ <;> rfl

/-- C8: `Object.Hash` rejects every algorithm other than MD5 with the
hash-not-supported error, and returns the stored MD5 string with no
error for MD5. -/
theorem hash_md5_only (o : Object) (t : HashType) :
    (t ≠ HashType.md5 →
      Object.Hash o t = .error FsError.hashUnsupported) ∧
    Object.Hash o HashType.md5 = .ok o.md5 := by
  refine ⟨fun ht => ?_, rfl⟩
  rw [Object.Hash, if_pos ht]

/-- Witness for `hash_md5_only` at a concrete object and the SHA-1
algorithm. -/
theorem hash_md5_only_witness :
    Object.Hash
        { remote := "r", id := "i", modTime := 0, md5 := "", size := 0 }
        HashType.sha1 = .error FsError.hashUnsupported ∧
    Object.Hash
        { remote := "r", id := "i", modTime := 0, md5 := "", size := 0 }
        HashType.md5 = .ok "" :=
  ⟨(hash_md5_only
      { remote := "r", id := "i", modTime := 0, md5 := "", size := 0 }
      HashType.sha1).1 (by decide),
   (hash_md5_only
      { remote := "r", id := "i", modTime := 0, md5 := "", size := 0 }
      HashType.md5).2⟩

/-- Every successful metadata read stores the empty string as the MD5
(the source sets `o.md5` to the literal empty string). -/
theorem readMetaData_md5_blank (sessionID : String)
    (resolution : Except FsError (String × String))
    (listing : Except String FolderList) (m : ObjMeta)
    (h : (readMetaData sessionID resolution listing).1 = .ok m) :
    m.md5 = "" := by
  rcases resolution with e | ⟨leaf, dirID⟩
  · by_cases he : e = FsError.dirNotFound
    · subst he
      simp [readMetaData] at h
    · simp [readMetaData, he] at h
  · rcases listing with msg | ⟨folders, files⟩
    · simp [readMetaData] at h
    · rcases files with _ | ⟨f, fs⟩
      · simp [readMetaData] at h
      · simp only [readMetaData, Except.ok.injEq] at h
        subst h
        rfl

/-- C9: objects built from a listing record, metadata reads, and
objects built by a metadata lookup all carry the empty string as MD5,
so `Object.Hash` with MD5 returns the empty string (hash unknown) with
no error. -/
theorem md5_never_populated (sessionID remote : String) (file : File)
    (resolution : Except FsError (String × String))
    (listing : Except String FolderList) (o : Object) (m : ObjMeta) :
    (newObjectWithInfo sessionID remote (some file) resolution listing =
        .ok o → o.md5 = "" ∧ Object.Hash o HashType.md5 = .ok "") ∧
    ((readMetaData sessionID resolution listing).1 = .ok m →
        m.md5 = "") ∧
    (newObjectWithInfo sessionID remote none resolution listing =
        .ok o → o.md5 = "" ∧ Object.Hash o HashType.md5 = .ok "") := by
  refine ⟨?_, readMetaData_md5_blank sessionID resolution listing m, ?_⟩
  · intro h
    simp only [newObjectWithInfo, Except.ok.injEq] at h
    subst h
    exact ⟨rfl, rfl⟩
  · intro h
    simp only [newObjectWithInfo] at h
    cases hr : (readMetaData sessionID resolution listing).1 with
    | error e =>
      rw [hr] at h
      simp at h
    | ok mFound =>
      rw [hr] at h
      simp only [Except.ok.injEq] at h
      subst h
      have hm := readMetaData_md5_blank sessionID resolution listing
        mFound hr
      exact ⟨hm, by simp [Object.Hash, hm]⟩

/-- Witness for `md5_never_populated`: an object constructed from a
concrete listing record. -/
theorem md5_never_populated_witness :
    ({ remote := "p", id := "fid", modTime := 7, md5 := "",
       size := 3 } : Object).md5 = "" ∧
    Object.Hash
      { remote := "p", id := "fid", modTime := 7, md5 := "", size := 3 }
      HashType.md5 = .ok "" :=
  (md5_never_populated "sess" "p"
      { name := "n", fileID := "fid", size := 3, dateModified := 7 }
      (.ok ("n", "d")) (.ok { folders := [], files := [] })
      { remote := "p", id := "fid", modTime := 7, md5 := "", size := 3 }
      { fileID := "x", dateModified := 0, md5 := "y", size := 0 }).1 rfl

/-- C5 counterexample to the claim as stated: a copy whose destination
is case-insensitively identical to the source fails with the conflict
error as claimed, but its call trace is not empty — the source
metadata lookup (`itembyname`) has already been performed before the
guard runs, refuting that no network call happens. -/
theorem copy_case_conflict_counterexample :
    copy { srcRoot := "", srcRemote := "x/file.txt", dstRoot := "",
           dstRemote := "X/FILE.TXT", sessionID := "sess",
           srcResolution := .ok ("file.txt", "dirX"),
           srcListing := .ok { folders := [],
                               files := [{ name := "file.txt",
                                           fileID := "f1", size := 3,
                                           dateModified := 0 }] },
           dstResolution := .ok ("FILE.TXT", "dirY"),
           copyResp := .ok { fileID := "f2", size := "3" } } =
      (.error (.other
          ("copy rejected: x/file.txt -> X/FILE.TXT are same name when lowercase")),
        [Call.itemByName "sess" "dirX" "file.txt"]) := rfl

/-- C5 (amended): when the destination path is case-insensitively
identical to the source path, `Fs.Copy` fails with the conflict error
after the source metadata lookup and performs neither the destination
resolution nor the server-side copy call — its trace is exactly the
metadata-lookup calls. -/
theorem copy_same_name_guard (env : CopyEnv) (srcMeta : ObjMeta)
    (mdCalls : List Call)
    (hmd : readMetaData env.sessionID env.srcResolution env.srcListing =
      (.ok srcMeta, mdCalls))
    (hsame : lowerStr (rootSlash env.srcRoot ++ env.srcRemote) =
      lowerStr (rootSlash env.dstRoot ++ env.dstRemote)) :
    copy env =
      (.error (.other ("copy rejected: " ++
        (rootSlash env.srcRoot ++ env.srcRemote) ++ " -> " ++
        (rootSlash env.dstRoot ++ env.dstRemote) ++
        " are same name when lowercase")), mdCalls) := by
  rw [copy, hmd]
  dsimp only
  rw [if_pos hsame]

/-- Witness for `copy_same_name_guard` at a concrete environment. -/
theorem copy_same_name_guard_witness :
    copy { srcRoot := "", srcRemote := "a.txt", dstRoot := "",
           dstRemote := "A.TXT", sessionID := "s",
           srcResolution := .ok ("a.txt", "d1"),
           srcListing := .ok { folders := [],
                               files := [{ name := "a.txt",
                                           fileID := "f1", size := 1,
                                           dateModified := 0 }] },
           dstResolution := .ok ("A.TXT", "d2"),
           copyResp := .ok { fileID := "f9", size := "1" } } =
      (.error (.other ("copy rejected: " ++
        (rootSlash "" ++ "a.txt") ++ " -> " ++ (rootSlash "" ++ "A.TXT") ++
        " are same name when lowercase")),
        [Call.itemByName "s" "d1" "a.txt"]) :=
  copy_same_name_guard _
    { fileID := "f1", dateModified := 0, md5 := "", size := 1 }
    [Call.itemByName "s" "d1" "a.txt"] rfl rfl

/-- A syntactically malformed decimal makes `parseInt` return value 0
with the failure flag, exactly as `strconv.ParseInt` does on a syntax
error. -/
theorem parseInt_not_decimal (s : String)
    (h : isGoDecimal s = false) : parseInt s = (0, false) := by
  rw [isGoDecimal] at h
  rw [parseInt]
  rcases hs : stripSign s.data with ⟨neg, ds⟩
  rw [hs] at h
  cases hE : ds.isEmpty with
  | true => simp [hE]
  | false =>
    rw [hE] at h
    simp only [Bool.not_false, Bool.true_and] at h
    simp [hE, h]

/-- C10: when the `move_copy` response carries a Size field that is
not a parseable decimal integer, `Fs.Copy` ignores the parse failure
and returns the destination object with size 0 and no error. -/
theorem copy_unparseable_size (env : CopyEnv) (srcMeta : ObjMeta)
    (mdCalls : List Call) (leaf directoryID : String)
    (response : CopyFileResponse)
    (hmd : readMetaData env.sessionID env.srcResolution env.srcListing =
      (.ok srcMeta, mdCalls))
    (hdiff : lowerStr (rootSlash env.srcRoot ++ env.srcRemote) ≠
      lowerStr (rootSlash env.dstRoot ++ env.dstRemote))
    (hdst : env.dstResolution = .ok (leaf, directoryID))
    (hresp : env.copyResp = .ok response)
    (hbad : isGoDecimal response.size = false) :
    (copy env).1 =
      .ok { remote := env.dstRemote, id := response.fileID, modTime := 0,
            md5 := "", size := 0 } := by
  have hp := parseInt_not_decimal response.size hbad
  rw [copy, hmd]
  dsimp only
  rw [if_neg hdiff, hdst]
  dsimp only
  rw [hresp]
  dsimp only
  rw [hp]

/-- Witness for `copy_unparseable_size`: the response Size is the
non-numeric string `abc`; the returned object has size 0 and no
error. -/
theorem copy_unparseable_size_witness :
    (copy { srcRoot := "", srcRemote := "a.txt", dstRoot := "",
            dstRemote := "b.txt", sessionID := "s",
            srcResolution := .ok ("a.txt", "d1"),
            srcListing := .ok { folders := [],
                                files := [{ name := "a.txt",
                                            fileID := "f1", size := 1,
                                            dateModified := 0 }] },
            dstResolution := .ok ("b.txt", "d2"),
            copyResp := .ok { fileID := "f9", size := "abc" } }).1 =
      .ok { remote := "b.txt", id := "f9", modTime := 0, md5 := "",
            size := 0 } :=
  copy_unparseable_size _
    { fileID := "f1", dateModified := 0, md5 := "", size := 1 }
    [Call.itemByName "s" "d1" "a.txt"] "b.txt" "d2"
    { fileID := "f9", size := "abc" } rfl (by decide) rfl rfl rfl

end Opendrive
